import Mathlib

/-!
Shallow embedding of `src/dbg/symbolinfo.cpp` (x64dbg symbol resolution and
synchronization core) together with theorems settling the specification
claims about it.

Machine integers (`duint`, 64-bit) are modelled as `Nat` with explicit
reduction modulo `2 ^ 64` where overflow matters.  C strings are modelled as
Lean `String`s (the fixed `MAX_SYM_NAME` scratch buffers and `strncpy_s`
truncation are not modelled; no claim depends on truncation).  External
collaborators (module directory, SymbolSource, import-table walker,
demangler, label store, platform symbol engine) are modelled as explicit
environment data, since the code only consumes their interfaces.
-/

/-- duint is a 64-bit unsigned integer; addition wraps modulo `2 ^ 64`. -/
def DUINT_MOD : Nat := 2 ^ 64

/-- 64-bit wrapping addition, used for `Base + info.addr` in SymEnum. -/
def dAdd (a b : Nat) : Nat := (a + b) % DUINT_MOD

/-- Does the character list `s` contain `pat` as a contiguous sublist?
Models C `strstr(s, pat) != nullptr`. -/
def charsHasSub (pat : List Char) : List Char → Bool
  | [] => pat.isEmpty
  | c :: rest => List.isPrefixOf pat (c :: rest) || charsHasSub pat rest

/-- Models `strstr(s, "Ordinal") != nullptr` (case-sensitive substring test,
symbolinfo.cpp line 75). -/
def containsOrdinal (s : String) : Bool := charsHasSub "Ordinal".toList s.toList

/-- ASCII lower-casing of one character, as `_strnicmp` performs it. -/
def asciiLower (c : Char) : Char :=
  if 65 ≤ c.toNat ∧ c.toNat ≤ 90 then Char.ofNat (c.toNat + 32) else c

/-- Does `s` start with `pre`?  Models C `strncmp(s, pre, pre.length) == 0`. -/
def strStartsWith (pre s : String) : Bool := List.isPrefixOf pre.toList s.toList

/-- Models `_strnicmp(Name, "Ordinal", 7) == 0` (case-insensitive comparison
of the first 7 characters, symbolinfo.cpp line 267). -/
def isOrdinalName (s : String) : Bool :=
  (s.toList.take 7).map asciiLower == "ordinal".toList

/-- An entry of a module's SymbolSource index (the `SymbolInfo` records
yielded by `SymbolSourceBase::enumSymbols`): a module-relative address plus
decorated and undecorated name as stored by the source. -/
structure SymbolInfoRec where
  addr : Nat
  decoratedName : String
  undecoratedName : String
  deriving Repr, DecidableEq

/-- Source line information yielded by `SymbolSourceBase::findSourceLineInfo`. -/
structure LineInfo where
  lineNumber : Nat
  sourceFile : String
  deriving Repr, DecidableEq

/-- A module's SymbolSource handle.  `isEmptySource` marks identity with the
`EmptySymbolSource` placeholder singleton (the `sym == &EmptySymbolSource`
test in SymGetSourceLine); a real opened source has `isEmptySource = false`. -/
structure SymbolSource where
  isOpen : Bool
  isEmptySource : Bool
  syms : List SymbolInfoRec
  findSourceLineInfo : Nat → Option LineInfo

/-- The `EmptySymbolSource` placeholder: not open, no symbols, no lines. -/
def EmptySymbolSource : SymbolSource :=
  { isOpen := false, isEmptySource := true, syms := [], findSourceLineInfo := fun _ => none }

/-- A module-directory record (the fields of `MODINFO` this unit reads).
The `symbols` pointer is never null in the module directory, so it is
modelled as a plain field (SymEnum dereferences it without a null check). -/
structure MODINFO where
  base : Nat
  size : Nat
  name : String
  extension : String
  entry : Nat
  symbols : SymbolSource

/-- A record yielded by the import-table walker `apienumimports`:
(module base, absolute address, decorated name, owning module name). -/
structure ImportRec where
  base : Nat
  addr : Nat
  name : String
  moduleName : String
  deriving Repr, DecidableEq

/-- The `SYMBOLINFO` value passed to the enumeration callback.  The
undecorated name pointer is `none` when the code sets it to `nullptr`. -/
structure SYMBOLINFO where
  addr : Nat
  decoratedSymbol : String
  undecoratedSymbol : Option String
  isImported : Bool
  deriving Repr, DecidableEq

/-- The read-side environment of the unit: module directory plus the
external capabilities consumed by the resolvers and enumerators.
`unDecorate` models `SafeUnDecorateSymbolName` (`none` = failure),
`labelAt` models `DbgGetLabelAt`, `symFromName` models `SafeSymFromName`.
`fmtAddr` is modelled from the spec: the address rendered at platform
pointer width by the external string formatting primitive (the sprintf
implementation is not part of this unit's source). -/
structure Env where
  modules : List MODINFO
  imports : Nat → List ImportRec
  unDecorate : String → Option String
  labelAt : Nat → Option String
  symFromName : String → Option Nat
  fmtAddr : Nat → String

/-- Module-directory lookup by containing address (`ModInfoFromAddr`):
first module whose `[base, base + size)` range contains `a`. -/
def ModInfoFromAddr (env : Env) (a : Nat) : Option MODINFO :=
  env.modules.find? fun m => decide (m.base ≤ a ∧ a < m.base + m.size)

/-- `ModEntryFromAddr`: the recorded entry point of the module containing
`a`, or 0 when no module is found. -/
def ModEntryFromAddr (env : Env) (a : Nat) : Nat :=
  match ModInfoFromAddr env a with
  | some m => m.entry
  | none => 0

/-- `ModNameFromAddr(addr, name, false)`: module name without extension. -/
def ModNameFromAddr (env : Env) (a : Nat) : Option String :=
  (ModInfoFromAddr env a).map (fun m => m.name)

/-- The symbol built from one indexed SymbolSource entry (symbolinfo.cpp
lines 62-91): absolute address is `Base + info.addr` (wrapping); when the
decorated and undecorated names are textually equal the undecorated field is
dropped (set to null) and the decorated field carries the unique name;
`isImported` is the `__imp_` name-prefix heuristic. -/
def mkIndexedSym (Base : Nat) (info : SymbolInfoRec) : SYMBOLINFO :=
  { addr := dAdd Base info.addr
    decoratedSymbol := info.decoratedName
    undecoratedSymbol :=
      if info.decoratedName = info.undecoratedName then none else some info.undecoratedName
    isImported := strStartsWith "__imp_" info.decoratedName }

/-- One step of the indexed enumeration: `none` when the entry is skipped by
the bad-ordinal rule (decorated name contains "Ordinal" and the absolute
address equals the module base, lines 74-80), otherwise the emitted symbol. -/
def indexedSymbol (Base : Nat) (info : SymbolInfoRec) : Option SYMBOLINFO :=
  if containsOrdinal info.decoratedName then
    if dAdd Base info.addr = Base then none
    else some (mkIndexedSym Base info)
  else some (mkIndexedSym Base info)

/-- The lambda SymEnum passes to `enumSymbols` (lines 60-94): it emits at
most one symbol, invokes the user callback, discards the callback's return
value (line 92) and returns `true` to the SymbolSource (line 93). -/
def symEnumAdapter (vis : SYMBOLINFO → Bool) (Base : Nat) (info : SymbolInfoRec) :
    List SYMBOLINFO × Bool :=
  match indexedSymbol Base info with
  | none => ([], true)
  | some s =>
    let _ := vis s
    ([s], true)

/-- `SymbolSourceBase::enumSymbols`: run the visitor over the index in
order, stopping as soon as the visitor returns `false`. -/
def runEnum (step : SymbolInfoRec → List SYMBOLINFO × Bool) :
    List SymbolInfoRec → List SYMBOLINFO
  | [] => []
  | info :: rest =>
    let r := step info
    if r.2 then r.1 ++ runEnum step rest else r.1

/-- The symbol built for one import-table entry by `SymEnumImports`
(lines 27-44): decorated name is the walker-supplied name; the undecorated
name is the demangler's output unless demangling fails or the output equals
the decorated name, in which case it is null. -/
def importSymbol (env : Env) (imp : ImportRec) : SYMBOLINFO :=
  { addr := imp.addr
    decoratedSymbol := imp.name
    undecoratedSymbol :=
      match env.unDecorate imp.name with
      | none => none
      | some u => if imp.name = u then none else some u
    isImported := true }

/-- `SymEnumImports` (lines 22-45): wrap every import-table record into a
symbol with `isImported = true` and emit it. -/
def SymEnumImports (env : Env) (Base : Nat) : List SYMBOLINFO :=
  (env.imports Base).map (importSymbol env)

/-- The pseudo entry point symbol (lines 99-104): all other fields zeroed. -/
def entryPointSymbol (entryAddr : Nat) : SYMBOLINFO :=
  { addr := entryAddr
    decoratedSymbol := "OptionalHeader.AddressOfEntryPoint"
    undecoratedSymbol := none
    isImported := false }

/-- `SymEnum` (lines 47-107), as the ordered sequence of visitor
invocations: the indexed pass (only when the module is found and its
SymbolSource is open), then the pseudo entry point symbol when the recorded
entry point is non-zero, then the import pass.  `vis` is the caller-supplied
callback; its return value is received and discarded exactly as at line 92. -/
def SymEnum (env : Env) (Base : Nat) (vis : SYMBOLINFO → Bool) : List SYMBOLINFO :=
  (match ModInfoFromAddr env Base with
   | some m =>
     if m.symbols.isOpen then runEnum (symEnumAdapter vis Base) m.symbols.syms else []
   | none => []) ++
  (let entryAddr := ModEntryFromAddr env Base
   if entryAddr ≠ 0 then [entryPointSymbol entryAddr] else []) ++
  SymEnumImports env Base

/-- The indexed pass of `SymEnum`, written as a filter-map over the source
index (no early-termination machinery). -/
def indexedSymbols (env : Env) (Base : Nat) : List SYMBOLINFO :=
  match ModInfoFromAddr env Base with
  | some m =>
    if m.symbols.isOpen then m.symbols.syms.filterMap (indexedSymbol Base) else []
  | none => []

theorem runEnum_symEnumAdapter (vis : SYMBOLINFO → Bool) (Base : Nat)
    (l : List SymbolInfoRec) :
    runEnum (symEnumAdapter vis Base) l = l.filterMap (indexedSymbol Base) := by
  induction l with
  | nil => rfl
  | cons info rest ih =>
    simp only [runEnum, symEnumAdapter, List.filterMap_cons]
    cases h : indexedSymbol Base info with
    | none => simpa using ih
    | some s => simpa using ih

theorem symEnum_decomp (env : Env) (Base : Nat) (vis : SYMBOLINFO → Bool) :
    SymEnum env Base vis =
      indexedSymbols env Base ++
      (if ModEntryFromAddr env Base ≠ 0 then [entryPointSymbol (ModEntryFromAddr env Base)]
       else []) ++
      SymEnumImports env Base := by
  unfold SymEnum indexedSymbols
  cases h : ModInfoFromAddr env Base with
  | none => rfl
  | some m =>
    by_cases ho : m.symbols.isOpen <;> simp [ho, runEnum_symEnumAdapter]

/-- C1: for every module base and visitor, SymEnum's visitor-invocation
sequence is exactly: the module-indexed symbols (only when the module is
found and its SymbolSource is open), then the synthetic
"OptionalHeader.AddressOfEntryPoint" pseudo-symbol emitted at most once and
only when the recorded entry point is non-zero, then all import-table
symbols. -/
theorem symEnum_fixed_order (env : Env) (Base : Nat) (vis : SYMBOLINFO → Bool) :
    SymEnum env Base vis =
      indexedSymbols env Base ++
      (if ModEntryFromAddr env Base ≠ 0 then [entryPointSymbol (ModEntryFromAddr env Base)]
       else []) ++
      SymEnumImports env Base :=
  symEnum_decomp env Base vis

/-- Module state used to exercise the visitor-stop behaviour: two indexed
symbols, no imports, zero entry point. -/
def c3src : SymbolSource :=
  { isOpen := true
    isEmptySource := false
    syms := [⟨16, "alpha", "alpha"⟩, ⟨32, "beta", "beta"⟩]
    findSourceLineInfo := fun _ => none }

def c3mod : MODINFO :=
  { base := 4096, size := 4096, name := "app", extension := ".exe", entry := 0, symbols := c3src }

def c3env : Env :=
  { modules := [c3mod]
    imports := fun _ => []
    unDecorate := fun _ => none
    labelAt := fun _ => none
    symFromName := fun _ => none
    fmtAddr := fun _ => "" }

/-- C3 counterexample: a visitor that signals stop on its very first
invocation still receives both indexed symbols — the adapter at
symbolinfo.cpp lines 92-93 discards the visitor's return value and always
returns `true` to the SymbolSource, so the stop signal is not honored. -/
theorem symEnum_stop_counterexample :
    SymEnum c3env 4096 (fun _ => false) =
      [{ addr := 4112, decoratedSymbol := "alpha", undecoratedSymbol := none, isImported := false },
       { addr := 4128, decoratedSymbol := "beta", undecoratedSymbol := none, isImported := false }] := by
  decide

/-- C3 amended: during the indexed pass the visitor's continue/stop return
value is ignored; the emitted sequence is identical for every visitor, and
the entry-point and import passes proceed independently as well. -/
theorem symEnum_visitor_ignored (env : Env) (Base : Nat) (vis vis' : SYMBOLINFO → Bool) :
    SymEnum env Base vis = SymEnum env Base vis' := by
  unfold SymEnum
  cases ModInfoFromAddr env Base with
  | none => rfl
  | some m =>
    by_cases ho : m.symbols.isOpen <;> simp [ho, runEnum_symEnumAdapter]

/-- C8: an indexed symbol whose decorated name contains "Ordinal" is
suppressed from SymEnum's output exactly when its absolute address equals
the module base; at any other address it is emitted, and the indexed pass
of SymEnum is precisely the per-entry filter. -/
theorem symEnum_ordinal_suppression (env : Env) (Base : Nat) (vis : SYMBOLINFO → Bool)
    (m : MODINFO) (info : SymbolInfoRec)
    (hm : ModInfoFromAddr env Base = some m)
    (hopen : m.symbols.isOpen = true)
    (hord : containsOrdinal info.decoratedName = true) :
    (dAdd Base info.addr = Base → indexedSymbol Base info = none) ∧
    (dAdd Base info.addr ≠ Base →
      indexedSymbol Base info = some (mkIndexedSym Base info)) ∧
    SymEnum env Base vis =
      m.symbols.syms.filterMap (indexedSymbol Base) ++
      (if ModEntryFromAddr env Base ≠ 0 then [entryPointSymbol (ModEntryFromAddr env Base)]
       else []) ++
      SymEnumImports env Base := by
  refine ⟨?_, ?_, ?_⟩
  · intro he
    simp [indexedSymbol, hord, he]
  · intro he
    simp [indexedSymbol, hord, he]
  · unfold SymEnum
    rw [hm]
    simp [hopen, runEnum_symEnumAdapter]

/-- Module state with the same ordinal-named symbol at the module base and
at a non-base address. -/
def c8src : SymbolSource :=
  { isOpen := true
    isEmptySource := false
    syms := [⟨0, "Ordinal5", "Ordinal5"⟩, ⟨16, "Ordinal5", "Ordinal5"⟩]
    findSourceLineInfo := fun _ => none }

def c8mod : MODINFO :=
  { base := 4096, size := 4096, name := "ord", extension := ".dll", entry := 0, symbols := c8src }

def c8env : Env :=
  { modules := [c8mod]
    imports := fun _ => []
    unDecorate := fun _ => none
    labelAt := fun _ => none
    symFromName := fun _ => none
    fmtAddr := fun _ => "" }

/-- C8 witness: "Ordinal5" at relative address 0 (absolute = base) is
suppressed while the identical name at relative address 16 is emitted. -/
theorem symEnum_ordinal_suppression_witness :
    indexedSymbol 4096 ⟨0, "Ordinal5", "Ordinal5"⟩ = none ∧
    indexedSymbol 4096 ⟨16, "Ordinal5", "Ordinal5"⟩ =
      some (mkIndexedSym 4096 ⟨16, "Ordinal5", "Ordinal5"⟩) ∧
    SymEnum c8env 4096 (fun _ => true) = [mkIndexedSym 4096 ⟨16, "Ordinal5", "Ordinal5"⟩] := by
  have h0 := symEnum_ordinal_suppression c8env 4096 (fun _ => true) c8mod
    ⟨0, "Ordinal5", "Ordinal5"⟩ rfl rfl (by decide)
  have h1 := symEnum_ordinal_suppression c8env 4096 (fun _ => true) c8mod
    ⟨16, "Ordinal5", "Ordinal5"⟩ rfl rfl (by decide)
  exact ⟨h0.1 (by decide), h1.2.1 (by decide), by decide⟩

/-- The per-symbol name invariant claimed by the spec: a non-empty
decorated name, and an undecorated field that, when populated, holds a
non-empty name different from the decorated one. -/
def nameInvariant (s : SYMBOLINFO) : Bool :=
  decide (s.decoratedSymbol ≠ "") &&
    (match s.undecoratedSymbol with
     | none => true
     | some u => decide (u ≠ "") && decide (u ≠ s.decoratedSymbol))

/-- Module state whose SymbolSource stores a symbol with a non-empty
decorated name and an empty undecorated name. -/
def c5src : SymbolSource :=
  { isOpen := true
    isEmptySource := false
    syms := [⟨16, "foo", ""⟩]
    findSourceLineInfo := fun _ => none }

def c5mod : MODINFO :=
  { base := 4096, size := 4096, name := "lib", extension := ".dll", entry := 0, symbols := c5src }

def c5env : Env :=
  { modules := [c5mod]
    imports := fun _ => []
    unDecorate := fun _ => none
    labelAt := fun _ => none
    symFromName := fun _ => none
    fmtAddr := fun _ => "" }

/-- C5 counterexample: an indexed entry whose stored undecorated name is
empty but different from its decorated name is emitted with
`undecoratedSymbol` populated by the empty string, not null — the indexed
pass copies the source's undecorated name verbatim without any demangling
or emptiness check (symbolinfo.cpp line 72). -/
theorem symEnum_nameInv_counterexample :
    SymEnum c5env 4096 (fun _ => true) =
      [{ addr := 4112, decoratedSymbol := "foo", undecoratedSymbol := some "",
         isImported := false }] ∧
    (SymEnum c5env 4096 (fun _ => true)).all nameInvariant = false :=
  ⟨by decide, by decide⟩

theorem indexedSymbol_eq_some (Base : Nat) (info : SymbolInfoRec) (s : SYMBOLINFO)
    (h : indexedSymbol Base info = some s) : s = mkIndexedSym Base info := by
  unfold indexedSymbol at h
  split at h
  · split at h
    · exact absurd h (by simp)
    · exact (Option.some.inj h).symm
  · exact (Option.some.inj h).symm

theorem nameInvariant_mkIndexed (Base : Nat) (info : SymbolInfoRec)
    (hdec : info.decoratedName ≠ "")
    (hund : info.undecoratedName = info.decoratedName ∨ info.undecoratedName ≠ "") :
    nameInvariant (mkIndexedSym Base info) = true := by
  unfold nameInvariant mkIndexedSym
  by_cases he : info.decoratedName = info.undecoratedName
  · have hu : info.undecoratedName ≠ "" := he ▸ hdec
    simp [he, hdec, hu]
  · rcases hund with h1 | h1
    · exact absurd h1.symm he
    · have hne : info.undecoratedName ≠ info.decoratedName := fun hx => he hx.symm
      simp [he, hdec, h1, hne]

theorem nameInvariant_entry (e : Nat) : nameInvariant (entryPointSymbol e) = true := by
  unfold nameInvariant entryPointSymbol
  simp

theorem nameInvariant_import (env : Env) (imp : ImportRec)
    (hname : imp.name ≠ "")
    (hund : ∀ n u, env.unDecorate n = some u → u ≠ "") :
    nameInvariant (importSymbol env imp) = true := by
  unfold nameInvariant importSymbol
  cases hu : env.unDecorate imp.name with
  | none => simp [hname]
  | some u =>
    by_cases he : imp.name = u
    · have hu' : u ≠ "" := he ▸ hname
      simp [he, hname, hu']
    · have hne : u ≠ imp.name := fun hx => he hx.symm
      simp [he, hname, hne, hund imp.name u hu]

/-- C5 amended: the invariant holds when the external providers are
well-behaved — the import walker yields non-empty names, successful
demangling yields a non-empty name, and the SymbolSource stores non-empty
decorated names and stores an undecorated name that is either equal to the
decorated one or non-empty.  Import symbols carry a populated undecorated
field exactly when the demangler succeeded with a differing output. -/
theorem symEnum_nameInv_amended (env : Env) (Base : Nat) (vis : SYMBOLINFO → Bool)
    (himp : ∀ imp ∈ env.imports Base, imp.name ≠ "")
    (hund : ∀ n u, env.unDecorate n = some u → u ≠ "")
    (hsrc : ∀ m, ModInfoFromAddr env Base = some m → ∀ info ∈ m.symbols.syms,
      info.decoratedName ≠ "" ∧
        (info.undecoratedName = info.decoratedName ∨ info.undecoratedName ≠ "")) :
    (∀ s ∈ SymEnum env Base vis, nameInvariant s = true) ∧
    (∀ s ∈ SymEnumImports env Base, ∀ u, s.undecoratedSymbol = some u →
      env.unDecorate s.decoratedSymbol = some u ∧ u ≠ s.decoratedSymbol) := by
  constructor
  · intro s hs
    rw [symEnum_decomp] at hs
    rcases List.mem_append.mp hs with hs' | hs'
    · rcases List.mem_append.mp hs' with hidx | hent
      · unfold indexedSymbols at hidx
        cases hm : ModInfoFromAddr env Base with
        | none => rw [hm] at hidx; simp at hidx
        | some m =>
          rw [hm] at hidx
          by_cases ho : m.symbols.isOpen = true
          · simp only [ho, if_true] at hidx
            obtain ⟨info, hmem, hsome⟩ := List.mem_filterMap.mp hidx
            obtain ⟨hdec, hu⟩ := hsrc m hm info hmem
            rw [indexedSymbol_eq_some Base info s hsome]
            exact nameInvariant_mkIndexed Base info hdec hu
          · simp [ho] at hidx
      · split at hent
        · rcases List.mem_singleton.mp hent with rfl
          exact nameInvariant_entry _
        · exact absurd hent (by simp)
    · obtain ⟨imp, hmem, rfl⟩ := List.mem_map.mp hs'
      exact nameInvariant_import env imp (himp imp hmem) hund
  · intro s hs u hu
    obtain ⟨imp, hmem, rfl⟩ := List.mem_map.mp hs
    have h : env.unDecorate imp.name = some u ∧ u ≠ imp.name := by
      simp only [importSymbol] at hu
      cases hud : env.unDecorate imp.name with
      | none => simp [hud] at hu
      | some v =>
        rw [hud] at hu
        simp only at hu
        by_cases he : imp.name = v
        · rw [if_pos he] at hu
          exact absurd hu (by simp)
        · rw [if_neg he] at hu
          obtain rfl := Option.some.inj hu
          exact ⟨hud.symm ▸ rfl, fun hx => he hx.symm⟩
    simpa [importSymbol] using h

/-- Well-behaved environment for the name-invariant witness: one open
module with a properly demangled indexed symbol, and one import whose
demangling fails. -/
def w5src : SymbolSource :=
  { isOpen := true
    isEmptySource := false
    syms := [⟨16, "bar", "int bar(void)"⟩]
    findSourceLineInfo := fun _ => none }

def w5mod : MODINFO :=
  { base := 4096, size := 4096, name := "app", extension := ".exe", entry := 0, symbols := w5src }

def w5env : Env :=
  { modules := [w5mod]
    imports := fun _ => [⟨4096, 8192, "imp1", "kernel32"⟩]
    unDecorate := fun _ => none
    labelAt := fun _ => none
    symFromName := fun _ => none
    fmtAddr := fun _ => "" }

/-- C5 witness: under well-behaved providers every emitted symbol satisfies
the name invariant. -/
theorem symEnum_nameInv_witness :
    (SymEnum w5env 4096 (fun _ => true)).all nameInvariant = true := by
  have h := symEnum_nameInv_amended w5env 4096 (fun _ => true)
    (by decide)
    (fun n u hcontra => nomatch hcontra)
    (by
      intro m hm
      injection hm with h1
      subst h1
      decide)
  exact List.all_eq_true.mpr (h.1)

/-- `SymAddrFromName` (symbolinfo.cpp lines 258-283).  `Name = none` models
a null name pointer and `addrValid = false` a null output pointer.  The
result is (return value, address written through the output pointer, number
of calls into the engine's `SymFromName`). -/
def SymAddrFromName (env : Env) (Name : Option String) (addrValid : Bool) :
    Bool × Option Nat × Nat :=
  match Name with
  | none => (false, none, 0)
  | some s =>
    if s = "" then (false, none, 0)
    else if addrValid = false then (false, none, 0)
    else if isOrdinalName s then (false, none, 0)
    else
      match env.symFromName s with
      | none => (false, none, 1)
      | some a => (true, some a, 1)

/-- C6: SymAddrFromName rejects a null or empty name, a null output
pointer, and any name whose first seven characters case-insensitively spell
"Ordinal", all without calling the engine; any other name is resolved by
exactly one engine call, succeeding exactly when the engine reports a
match, and the engine-resolved address is written to the output pointer. -/
theorem symAddrFromName_spec (env : Env) (Name : Option String) (addrValid : Bool) :
    (Name = none → SymAddrFromName env Name addrValid = (false, none, 0)) ∧
    (Name = some "" → SymAddrFromName env Name addrValid = (false, none, 0)) ∧
    (addrValid = false → SymAddrFromName env Name addrValid = (false, none, 0)) ∧
    (∀ s, Name = some s → isOrdinalName s = true →
      SymAddrFromName env Name addrValid = (false, none, 0)) ∧
    (∀ s, Name = some s → s ≠ "" → addrValid = true → isOrdinalName s = false →
      (SymAddrFromName env Name addrValid).1 = (env.symFromName s).isSome ∧
      (SymAddrFromName env Name addrValid).2.1 = env.symFromName s ∧
      (SymAddrFromName env Name addrValid).2.2 = 1) := by
  refine ⟨?_, ?_, ?_, ?_, ?_⟩
  · intro h
    subst h
    rfl
  · intro h
    subst h
    rfl
  · intro h
    subst h
    cases Name with
    | none => rfl
    | some s =>
      unfold SymAddrFromName
      by_cases he : s = "" <;> simp [he]
  · intro s h ho
    subst h
    unfold SymAddrFromName
    by_cases he : s = ""
    · simp [he]
    · by_cases hv : addrValid = false <;> simp [he, hv, ho]
  · intro s h hne hv ho
    subst h
    subst hv
    unfold SymAddrFromName
    cases hf : env.symFromName s <;> simp [hne, ho, hf]

def w6env : Env :=
  { modules := []
    imports := fun _ => []
    unDecorate := fun _ => none
    labelAt := fun _ => none
    symFromName := fun n => if n = "GetProcAddress" then some 77 else none
    fmtAddr := fun _ => "" }

/-- C6 witness: "Ordinal5" is rejected with zero engine calls; a resolvable
name succeeds with one engine call and the engine's address is written. -/
theorem symAddrFromName_witness :
    SymAddrFromName w6env (some "Ordinal5") true = (false, none, 0) ∧
    (SymAddrFromName w6env (some "GetProcAddress") true).1 = true ∧
    (SymAddrFromName w6env (some "GetProcAddress") true).2.1 = some 77 ∧
    (SymAddrFromName w6env (some "GetProcAddress") true).2.2 = 1 := by
  have h1 := (symAddrFromName_spec w6env (some "Ordinal5") true).2.2.2.1
    "Ordinal5" rfl (by decide)
  have h2 := (symAddrFromName_spec w6env (some "GetProcAddress") true).2.2.2.2
    "GetProcAddress" rfl (by decide) rfl (by decide)
  exact ⟨h1, h2.1.trans rfl, h2.2.1.trans rfl, h2.2.2⟩

/-- `SymGetSymbolicName` (symbolinfo.cpp lines 285-307): user labels take
precedence; a known module qualifies the result; with neither label nor
module the empty string is returned. -/
def SymGetSymbolicName (env : Env) (Address : Nat) : String :=
  let hasModule := ModNameFromAddr env Address
  match env.labelAt Address with
  | none =>
    match hasModule with
    | some modname => modname ++ "." ++ env.fmtAddr Address
    | none => ""
  | some label =>
    match hasModule with
    | some modname => "<" ++ modname ++ "." ++ label ++ ">"
    | none => "<" ++ label ++ ">"

/-- C7: the fixed precedence of SymGetSymbolicName — label with module
gives the bracketed module-qualified label, label alone the bracketed
label, module alone the module name dotted with the pointer-width formatted
address, neither the empty string. -/
theorem symGetSymbolicName_precedence (env : Env) (a : Nat) :
    (∀ l, env.labelAt a = some l →
      (∀ mn, ModNameFromAddr env a = some mn →
        SymGetSymbolicName env a = "<" ++ mn ++ "." ++ l ++ ">") ∧
      (ModNameFromAddr env a = none → SymGetSymbolicName env a = "<" ++ l ++ ">")) ∧
    (env.labelAt a = none →
      (∀ mn, ModNameFromAddr env a = some mn →
        SymGetSymbolicName env a = mn ++ "." ++ env.fmtAddr a) ∧
      (ModNameFromAddr env a = none → SymGetSymbolicName env a = "")) := by
  constructor
  · intro l hl
    constructor
    · intro mn hmn
      unfold SymGetSymbolicName
      rw [hl, hmn]
    · intro hmn
      unfold SymGetSymbolicName
      rw [hl, hmn]
  · intro hl
    constructor
    · intro mn hmn
      unfold SymGetSymbolicName
      rw [hl, hmn]
    · intro hmn
      unfold SymGetSymbolicName
      rw [hl, hmn]

def w7mod : MODINFO :=
  { base := 4096, size := 4096, name := "app", extension := ".exe", entry := 0,
    symbols := EmptySymbolSource }

def w7env : Env :=
  { modules := [w7mod]
    imports := fun _ => []
    unDecorate := fun _ => none
    labelAt := fun a => if a = 4112 then some "main" else none
    symFromName := fun _ => none
    fmtAddr := fun _ => "0000000000001020" }

/-- C7 witness: the three non-trivial precedence outcomes on a concrete
environment. -/
theorem symGetSymbolicName_witness :
    SymGetSymbolicName w7env 4112 = "<app.main>" ∧
    SymGetSymbolicName w7env 4128 = "app.0000000000001020" ∧
    SymGetSymbolicName w7env 999999 = "" := by
  have h1 := ((symGetSymbolicName_precedence w7env 4112).1 "main" rfl).1 "app" rfl
  have h2 := ((symGetSymbolicName_precedence w7env 4128).2 rfl).1 "app" rfl
  have h3 := ((symGetSymbolicName_precedence w7env 999999).2 rfl).2 rfl
  exact ⟨h1, h2.trans rfl, h3⟩

/-- The platform symbol engine's global configuration: search path and
option flags (a 32-bit DWORD). -/
structure EngineState where
  searchPath : String
  options : Nat
  deriving Repr, DecidableEq

/-- SYMOPT_IGNORE_CVREC is bit 7 (0x80); clearing it in a 32-bit DWORD is a
bitwise and with the complement. -/
def clearCvrec (o : Nat) : Nat := o &&& 0xFFFFFF7F

/-- Observable calls made by SymDownloadAllSymbols into the engine and the
process-query API, with their outcomes.  `k` is the candidate search-path
index of the inner loop. -/
inductive Ev where
  | setPath (path : String) (ok : Bool)
  | getFileName (base : Nat) (k : Nat) (ok : Bool)
  | unload (base : Nat) (k : Nat) (ok : Bool)
  | load (base : Nat) (k : Nat) (ok : Bool)
  | getInfo (base : Nat) (k : Nat) (ok : Bool)
  | setOpts (o : Nat)
  deriving Repr, DecidableEq

/-- Extracts the option value of a set-options event. -/
def evSetOpts : Ev → Option Nat
  | .setOpts o => some o
  | _ => none

/-- Outcome oracles for the fallible external calls of the synchronizer,
indexed by module base and candidate index (each such call happens at most
once per module and candidate).  `restorePathOk` is the outcome of the
final search-path restore call; `getSearchPathOk` the outcome of the
initial search-path read.  `symTypeIsPdb` tells whether the engine reports
`SymPdb` for the (module, candidate) load; any other symbol type — notably
`SymExport` — is classified as failure.  A failing set-search-path call
leaves the engine state unchanged. -/
structure SyncEnv where
  getSearchPathOk : Bool
  setPathOk : Nat → Nat → Bool
  restorePathOk : Bool
  getFileNameOk : Nat → Nat → Bool
  unloadOk : Nat → Nat → Bool
  loadOk : Nat → Nat → Bool
  getInfoOk : Nat → Nat → Bool
  symTypeIsPdb : Nat → Nat → Bool
  cachePath : String

/-- The two candidate search paths of the reload loop (symbolinfo.cpp
lines 181-185): the empty engine-default path, then the composite
SRV*cache*store path. -/
def searchPaths (env : SyncEnv) (store : String) : List String :=
  ["", "SRV*" ++ env.cachePath ++ "*" ++ store]

/-- One iteration of the inner candidate loop (lines 190-248): set the
engine's search path, resolve the module's on-disk path, unload, load,
materialize module info, and classify the symbol type.  Any failure makes
the iteration a failure (the C code's `continue`); only a `SymPdb`
classification reports success (the `break`).  Returns the engine state,
the calls made, and the success flag. -/
def tryCandidate (env : SyncEnv) (store : String) (base k : Nat) (st : EngineState) :
    EngineState × List Ev × Bool :=
  let path := List.getD (searchPaths env store) k ""
  if env.setPathOk base k then
    let st1 : EngineState := { st with searchPath := path }
    if env.getFileNameOk base k then
      if env.unloadOk base k then
        if env.loadOk base k then
          if env.getInfoOk base k then
            (st1, [Ev.setPath path true, Ev.getFileName base k true, Ev.unload base k true,
                   Ev.load base k true, Ev.getInfo base k true], env.symTypeIsPdb base k)
          else
            (st1, [Ev.setPath path true, Ev.getFileName base k true, Ev.unload base k true,
                   Ev.load base k true, Ev.getInfo base k false], false)
        else
          (st1, [Ev.setPath path true, Ev.getFileName base k true, Ev.unload base k true,
                 Ev.load base k false], false)
      else
        (st1, [Ev.setPath path true, Ev.getFileName base k true, Ev.unload base k false],
         false)
    else
      (st1, [Ev.setPath path true, Ev.getFileName base k false], false)
  else
    (st, [Ev.setPath path false], false)

/-- A module snapshot entry (`SYMBOLMODULEINFO`): base plus name with
extension appended. -/
structure SYMBOLMODULEINFO where
  base : Nat
  name : String
  deriving Repr, DecidableEq

/-- `SymGetModuleList` (symbolinfo.cpp lines 114-125): walk the module
directory, append one {base, name+extension} entry per module, and return
the literal `true`. -/
def SymGetModuleList (modules : List MODINFO) : Bool × List SYMBOLMODULEINFO :=
  (true, modules.map fun m => { base := m.base, name := m.name ++ m.extension })

/-- `SymUpdateModuleList` (lines 127-147), as what it publishes to the GUI:
on the (unreachable) directory-walk failure it would publish `(0, none)`
(the `GuiSymbolUpdateModuleList(0, nullptr)` call); otherwise it publishes
the entry count and the copied array. -/
def SymUpdateModuleList (modules : List MODINFO) : Nat × Option (List SYMBOLMODULEINFO) :=
  let r := SymGetModuleList modules
  if r.1 = false then (0, none)
  else (r.2.length, some r.2)

/-- The per-module candidate loop of the synchronizer (lines 190-248):
try candidate 0; only when it does not report success, try candidate 1.
There are exactly two candidates (`sizeof(search_paths)/sizeof(*)`). -/
def tryModule (env : SyncEnv) (store : String) (base : Nat) (st : EngineState) :
    EngineState × List Ev :=
  let r0 := tryCandidate env store base 0 st
  if r0.2.2 then (r0.1, r0.2.1)
  else
    let r1 := tryCandidate env store base 1 r0.1
    (r1.1, r0.2.1 ++ r1.2.1)

/-- The outer module loop of the synchronizer (lines 188-249). -/
def downloadLoop (env : SyncEnv) (store : String) :
    List Nat → EngineState → EngineState × List Ev
  | [], st => (st, [])
  | base :: rest, st =>
    let r1 := tryModule env store base st
    let r2 := downloadLoop env store rest r1.1
    (r2.1, r1.2 ++ r2.2)

/-- `SymDownloadAllSymbols` (lines 149-256) as a transformer of the
engine's global state, also returning the calls made.  A null `SymbolStore`
defaults to the Microsoft symbol server.  The call is a no-op when the
module list is empty or when reading the current search path fails; the
option flags are set to the cleared value for the loop's duration and set
back afterwards; the final search-path restore is attempted and, on
failure, only logged. -/
def SymDownloadAllSymbols (env : SyncEnv) (modules : List MODINFO)
    (SymbolStore : Option String) (st : EngineState) : EngineState × List Ev :=
  let store := SymbolStore.getD "https://msdl.microsoft.com/download/symbols"
  let modList := (SymGetModuleList modules).2
  if modList.isEmpty then (st, [])
  else if env.getSearchPathOk = false then (st, [])
  else
    let oldSearchPath := st.searchPath
    let symOptions := st.options
    let st1 : EngineState := { st with options := clearCvrec symOptions }
    let r := downloadLoop env store (modList.map (fun m => m.base)) st1
    let st2 : EngineState := { r.1 with options := symOptions }
    let evs := Ev.setOpts (clearCvrec symOptions) :: r.2 ++ [Ev.setOpts symOptions]
    if env.restorePathOk then
      ({ st2 with searchPath := oldSearchPath }, evs ++ [Ev.setPath oldSearchPath true])
    else
      (st2, evs ++ [Ev.setPath oldSearchPath false])

theorem tryCandidate_options (env : SyncEnv) (store : String) (base k : Nat)
    (st : EngineState) : (tryCandidate env store base k st).1.options = st.options := by
  unfold tryCandidate
  split_ifs <;> rfl

theorem tryCandidate_noOpts (env : SyncEnv) (store : String) (base k : Nat)
    (st : EngineState) : (tryCandidate env store base k st).2.1.filterMap evSetOpts = [] := by
  unfold tryCandidate
  split_ifs <;> rfl

theorem tryModule_options (env : SyncEnv) (store : String) (base : Nat) (st : EngineState) :
    (tryModule env store base st).1.options = st.options := by
  unfold tryModule
  by_cases h : (tryCandidate env store base 0 st).2.2 <;>
    simp [h, tryCandidate_options]

theorem tryModule_noOpts (env : SyncEnv) (store : String) (base : Nat) (st : EngineState) :
    (tryModule env store base st).2.filterMap evSetOpts = [] := by
  unfold tryModule
  by_cases h : (tryCandidate env store base 0 st).2.2 <;>
    simp [h, List.filterMap_append, tryCandidate_noOpts]

theorem downloadLoop_options (env : SyncEnv) (store : String) (bases : List Nat)
    (st : EngineState) : (downloadLoop env store bases st).1.options = st.options := by
  induction bases generalizing st with
  | nil => rfl
  | cons b rest ih => simp [downloadLoop, ih, tryModule_options]

theorem downloadLoop_noOpts (env : SyncEnv) (store : String) (bases : List Nat)
    (st : EngineState) : (downloadLoop env store bases st).2.filterMap evSetOpts = [] := by
  induction bases generalizing st with
  | nil => rfl
  | cons b rest ih => simp [downloadLoop, List.filterMap_append, ih, tryModule_noOpts]

/-- C2 amended: given the initial search-path read succeeds, the module
list is non-empty and the final search-path restore call succeeds, the
engine state after SymDownloadAllSymbols equals the pre-call state exactly,
however many per-module attempts failed; and the only option values ever
set during the call are the pre-call options with SYMOPT_IGNORE_CVREC
cleared, followed by the restored pre-call options.  (Without the final
restore succeeding, the search path may be left at a candidate value.) -/
theorem symDownload_restore_amended (env : SyncEnv) (modules : List MODINFO)
    (store : Option String) (st : EngineState)
    (hget : env.getSearchPathOk = true)
    (hmods : modules ≠ [])
    (hrestore : env.restorePathOk = true) :
    (SymDownloadAllSymbols env modules store st).1 = st ∧
    (SymDownloadAllSymbols env modules store st).2.filterMap evSetOpts =
      [clearCvrec st.options, st.options] := by
  have hne : ((SymGetModuleList modules).2.isEmpty) = false := by
    cases modules with
    | nil => exact absurd rfl hmods
    | cons m rest => rfl
  unfold SymDownloadAllSymbols
  simp only [hne, hget, hrestore, Bool.false_eq_true, if_false, Bool.true_eq_false, if_true]
  constructor
  · trivial
  · simp [List.filterMap_append, List.filterMap_cons, evSetOpts, downloadLoop_noOpts]

/-- A module whose symbol data is irrelevant to the synchronizer. -/
def x2mod : MODINFO :=
  { base := 4096, size := 4096, name := "a", extension := ".dll", entry := 0,
    symbols := EmptySymbolSource }

/-- Oracle where both candidate search paths can be set but every on-disk
path resolution fails, and the final search-path restore call fails. -/
def x2sync : SyncEnv :=
  { getSearchPathOk := true
    setPathOk := fun _ _ => true
    restorePathOk := false
    getFileNameOk := fun _ _ => false
    unloadOk := fun _ _ => false
    loadOk := fun _ _ => false
    getInfoOk := fun _ _ => false
    symTypeIsPdb := fun _ _ => false
    cachePath := "C:\\cache" }

def x2st : EngineState := { searchPath := "C:\\original", options := 128 }

/-- C2 counterexample: with the initial search-path read succeeding and a
non-empty module list, a failing final restore call (which the code only
logs, symbolinfo.cpp lines 254-255) leaves the engine's search path at the
last candidate value instead of the pre-call value, even though the option
flags are restored. -/
theorem symDownload_restore_counterexample :
    x2sync.getSearchPathOk = true ∧
    ([x2mod] : List MODINFO) ≠ [] ∧
    (SymDownloadAllSymbols x2sync [x2mod] none x2st).1.searchPath =
      "SRV*C:\\cache*https://msdl.microsoft.com/download/symbols" ∧
    (SymDownloadAllSymbols x2sync [x2mod] none x2st).1.searchPath ≠ x2st.searchPath ∧
    (SymDownloadAllSymbols x2sync [x2mod] none x2st).1.options = x2st.options := by
  refine ⟨rfl, by simp, by decide, by decide, by decide⟩

def w2mod : MODINFO :=
  { base := 8192, size := 4096, name := "b", extension := ".dll", entry := 0,
    symbols := EmptySymbolSource }

/-- Oracle where every engine call, including the final restore, succeeds. -/
def w2sync : SyncEnv :=
  { getSearchPathOk := true
    setPathOk := fun _ _ => true
    restorePathOk := true
    getFileNameOk := fun _ _ => true
    unloadOk := fun _ _ => true
    loadOk := fun _ _ => true
    getInfoOk := fun _ _ => true
    symTypeIsPdb := fun _ _ => true
    cachePath := "C:\\symbols" }

def w2st : EngineState := { searchPath := "C:\\oldpath", options := 128 }

/-- C2 witness: on a concrete run the engine state is restored exactly and
the only option values set are the CVREC-cleared value and the original. -/
theorem symDownload_restore_witness :
    (SymDownloadAllSymbols w2sync [w2mod] none w2st).1 = w2st ∧
    (SymDownloadAllSymbols w2sync [w2mod] none w2st).2.filterMap evSetOpts = [0, 128] := by
  have h := symDownload_restore_amended w2sync [w2mod] none w2st rfl (by simp) rfl
  exact ⟨h.1, h.2.trans (by decide)⟩

/-- C4 amended: when resolving the module's on-disk image path fails on the
first candidate search path, the synchronizer does not skip to the next
module; it proceeds to the second candidate for the same module — the
image-path resolution is retried there (the `continue` at symbolinfo.cpp
line 206 advances the candidate loop, not the module loop). -/
theorem symDownload_candidate_retry (env : SyncEnv) (store : String) (base : Nat)
    (st : EngineState)
    (hset : env.setPathOk base 0 = true)
    (hfile : env.getFileNameOk base 0 = false) :
    tryModule env store base st =
      ((tryCandidate env store base 1 { st with searchPath := "" }).1,
       [Ev.setPath "" true, Ev.getFileName base 0 false] ++
         (tryCandidate env store base 1 { st with searchPath := "" }).2.1) ∧
    (tryCandidate env store base 1 { st with searchPath := "" }).2.1 ≠ [] := by
  have h0 : tryCandidate env store base 0 st =
      ({ st with searchPath := "" },
       [Ev.setPath "" true, Ev.getFileName base 0 false], false) := by
    unfold tryCandidate searchPaths
    simp [hset, hfile]
  constructor
  · unfold tryModule
    rw [h0]
    simp
  · unfold tryCandidate
    split_ifs <;> simp

/-- Oracle where candidate paths can always be set but every on-disk path
resolution fails; everything else succeeds. -/
def x4sync : SyncEnv :=
  { getSearchPathOk := true
    setPathOk := fun _ _ => true
    restorePathOk := true
    getFileNameOk := fun _ _ => false
    unloadOk := fun _ _ => true
    loadOk := fun _ _ => true
    getInfoOk := fun _ _ => true
    symTypeIsPdb := fun _ _ => true
    cachePath := "C:\\cache" }

def x4mod : MODINFO :=
  { base := 4096, size := 4096, name := "c", extension := ".dll", entry := 0,
    symbols := EmptySymbolSource }

def x4st : EngineState := { searchPath := "C:\\original", options := 0 }

/-- C4 counterexample: after the image-path resolution fails on candidate 0
for module 4096, the full call trace shows the second candidate search path
being set and the resolution re-attempted (and failing again) for the very
same module — contradicting "skip to the next module entirely; not retried
across the remaining candidate search paths". -/
theorem symDownload_skip_counterexample :
    (SymDownloadAllSymbols x4sync [x4mod] none x4st).2 =
      [Ev.setOpts 0,
       Ev.setPath "" true, Ev.getFileName 4096 0 false,
       Ev.setPath "SRV*C:\\cache*https://msdl.microsoft.com/download/symbols" true,
       Ev.getFileName 4096 1 false,
       Ev.setOpts 0, Ev.setPath "C:\\original" true] ∧
    Ev.getFileName 4096 1 false ∈ (SymDownloadAllSymbols x4sync [x4mod] none x4st).2 := by
  exact ⟨by decide, by decide⟩

/-- C4 witness: the amended retry behaviour at a concrete module and state. -/
theorem symDownload_candidate_retry_witness :
    tryModule x4sync "S" 4096 x4st =
      ((tryCandidate x4sync "S" 4096 1 { x4st with searchPath := "" }).1,
       [Ev.setPath "" true, Ev.getFileName 4096 0 false] ++
         (tryCandidate x4sync "S" 4096 1 { x4st with searchPath := "" }).2.1) :=
  (symDownload_candidate_retry x4sync "S" 4096 x4st rfl rfl).1

/-- `SymGetSourceLine` (symbolinfo.cpp lines 309-333): find the owning
module, reject the `EmptySymbolSource` placeholder, look up line info at
the module-relative address; on success report (file, line, displacement)
with displacement fixed at zero.  (The `!sym` null check of line 316 is
vacuous: the module directory never stores a null source pointer.) -/
def SymGetSourceLine (env : Env) (Cip : Nat) : Option (String × Nat × Nat) :=
  match ModInfoFromAddr env Cip with
  | none => none
  | some m =>
    if m.symbols.isEmptySource then none
    else
      match m.symbols.findSourceLineInfo (Cip - m.base) with
      | none => none
      | some li => some (li.sourceFile, li.lineNumber, 0)

theorem symGetSourceLine_notFound (env : Env) (Cip : Nat)
    (hm : ModInfoFromAddr env Cip = none) : SymGetSourceLine env Cip = none := by
  unfold SymGetSourceLine
  rw [hm]

theorem symGetSourceLine_empty (env : Env) (Cip : Nat) (m : MODINFO)
    (hm : ModInfoFromAddr env Cip = some m) (hemp : m.symbols.isEmptySource = true) :
    SymGetSourceLine env Cip = none := by
  unfold SymGetSourceLine
  rw [hm]
  simp [hemp]

theorem symGetSourceLine_found (env : Env) (Cip : Nat) (m : MODINFO)
    (hm : ModInfoFromAddr env Cip = some m) (hemp : m.symbols.isEmptySource = false) :
    SymGetSourceLine env Cip =
      (m.symbols.findSourceLineInfo (Cip - m.base)).map
        (fun li => (li.sourceFile, li.lineNumber, 0)) := by
  unfold SymGetSourceLine
  rw [hm]
  cases hfi : m.symbols.findSourceLineInfo (Cip - m.base) <;> simp [hemp, hfi]

/-- C9: under the module-directory invariant (modelled from the spec: a
module records either the empty placeholder source or an opened one),
SymGetSourceLine succeeds exactly when the address lies in a known module
whose SymbolSource is open and non-empty and yields line info for the
module-relative address; on success the displacement is zero and line and
file come from that lookup. -/
theorem symGetSourceLine_spec (env : Env) (Cip : Nat)
    (hwf : ∀ m, ModInfoFromAddr env Cip = some m →
      m.symbols.isEmptySource = false → m.symbols.isOpen = true) :
    (∀ file line disp, SymGetSourceLine env Cip = some (file, line, disp) →
      disp = 0 ∧
      ∃ m li, ModInfoFromAddr env Cip = some m ∧ m.symbols.isEmptySource = false ∧
        m.symbols.isOpen = true ∧
        m.symbols.findSourceLineInfo (Cip - m.base) = some li ∧
        file = li.sourceFile ∧ line = li.lineNumber) ∧
    (∀ m li, ModInfoFromAddr env Cip = some m → m.symbols.isEmptySource = false →
      m.symbols.findSourceLineInfo (Cip - m.base) = some li →
      SymGetSourceLine env Cip = some (li.sourceFile, li.lineNumber, 0)) ∧
    (ModInfoFromAddr env Cip = none → SymGetSourceLine env Cip = none) ∧
    (∀ m, ModInfoFromAddr env Cip = some m →
      (m.symbols.isEmptySource = true ∨ m.symbols.isOpen = false) →
      SymGetSourceLine env Cip = none) := by
  refine ⟨?_, ?_, ?_, ?_⟩
  · intro file line disp h
    cases hm : ModInfoFromAddr env Cip with
    | none =>
      rw [symGetSourceLine_notFound env Cip hm] at h
      exact absurd h (by simp)
    | some m =>
      by_cases hemp : m.symbols.isEmptySource = true
      · rw [symGetSourceLine_empty env Cip m hm hemp] at h
        exact absurd h (by simp)
      · rw [Bool.not_eq_true] at hemp
        rw [symGetSourceLine_found env Cip m hm hemp] at h
        cases hfi : m.symbols.findSourceLineInfo (Cip - m.base) with
        | none =>
          rw [hfi] at h
          exact absurd h (by simp)
        | some li =>
          rw [hfi] at h
          simp only [Option.map_some', Option.some.injEq, Prod.mk.injEq] at h
          exact ⟨h.2.2.symm, m, li, rfl, hemp, hwf m hm hemp, hfi, h.1.symm, h.2.1.symm⟩
  · intro m li hm hemp hfi
    rw [symGetSourceLine_found env Cip m hm hemp, hfi]
    rfl
  · exact symGetSourceLine_notFound env Cip
  · intro m hm hbad
    rcases hbad with hemp | hop
    · exact symGetSourceLine_empty env Cip m hm hemp
    · have hemp : m.symbols.isEmptySource = true := by
        by_contra hc
        rw [Bool.not_eq_true] at hc
        rw [hwf m hm hc] at hop
        exact absurd hop (by simp)
      exact symGetSourceLine_empty env Cip m hm hemp

/-- A module with an open, non-empty SymbolSource that knows one line. -/
def w9src : SymbolSource :=
  { isOpen := true
    isEmptySource := false
    syms := []
    findSourceLineInfo := fun r => if r = 16 then some ⟨42, "main.cpp"⟩ else none }

def w9mod : MODINFO :=
  { base := 4096, size := 4096, name := "app", extension := ".exe", entry := 0,
    symbols := w9src }

def w9env : Env :=
  { modules := [w9mod]
    imports := fun _ => []
    unDecorate := fun _ => none
    labelAt := fun _ => none
    symFromName := fun _ => none
    fmtAddr := fun _ => "" }

/-- C9 witness: the lookup at 4112 = base + 16 succeeds with displacement
zero and the source's file and line. -/
theorem symGetSourceLine_witness :
    SymGetSourceLine w9env 4112 = some ("main.cpp", 42, 0) := by
  have hwf : ∀ m, ModInfoFromAddr w9env 4112 = some m →
      m.symbols.isEmptySource = false → m.symbols.isOpen = true := by
    intro m hm _
    have h2 : some w9mod = some m := hm
    injection h2 with h
    subst h
    rfl
  exact (symGetSourceLine_spec w9env 4112 hwf).2.1 w9mod ⟨42, "main.cpp"⟩ rfl rfl rfl

/-- C10: SymGetModuleList returns `true` for every module-directory state,
so SymUpdateModuleList never publishes the failure value `(0, none)`: it
always publishes one {base, name+extension} entry per enumerated module —
a zero-length snapshot when no modules are loaded. -/
theorem symUpdateModuleList_total (modules : List MODINFO) :
    (SymGetModuleList modules).1 = true ∧
    SymUpdateModuleList modules =
      (modules.length,
       some (modules.map fun m => { base := m.base, name := m.name ++ m.extension })) := by
  constructor
  · rfl
  · unfold SymUpdateModuleList SymGetModuleList
    simp
